import Mathlib

/-!
Shallow embedding of the adaptive rate-limiting and abuse-detection
subsystem (`utils/rate_limiter.py`) of the marketingagent repository.

Modelling conventions:
* Wall-clock readings (`time.time()` / `datetime.now()`) are passed
  explicitly as rationals; Python floats are modelled as rationals.
* Python dictionaries are modelled as functions into `Option`.
* The md5 client-key hash is modelled as the identity on the hashed
  string `ip ++ ":" ++ (user_agent or "unknown")` (the source accepts
  collisions as "same logical client", and no claim depends on them).
* Python exceptions (`KeyError`, `AttributeError`) are modelled with
  `Except`; the state component returned alongside an error is the
  state at the moment the exception is raised, matching the in-place
  mutations that have already happened in the source.
-/

namespace RateLimiterSpec

/-- Throttle primitive `TokenBucket` (rate_limiter.py lines 58-66).
`capacity` is an int in the source and `tokens` a float; both are
modelled as rationals. -/
structure TokenBucket where
  capacity : ℚ
  tokens : ℚ
  refill_rate : ℚ
  last_refill : ℚ
deriving DecidableEq

/-- `TokenBucket.__init__`: starts full, remembering the construction time. -/
def TokenBucket.init (capacity refill_rate now : ℚ) : TokenBucket :=
  { capacity := capacity, tokens := capacity, refill_rate := refill_rate,
    last_refill := now }

/-- `TokenBucket.consume` (lines 68-80): refill from elapsed time, capped at
capacity, then subtract `n` iff at least `n` tokens are available. -/
def TokenBucket.consume (tb : TokenBucket) (now : ℚ) (n : ℚ) :
    Bool × TokenBucket :=
  let refilled := min tb.capacity (tb.tokens + (now - tb.last_refill) * tb.refill_rate)
  if n ≤ refilled then
    (true, { tb with tokens := refilled - n, last_refill := now })
  else
    (false, { tb with tokens := refilled, last_refill := now })

/-- Trace of a sequence of `consume` calls: each op is a pair
(wall-clock time of the call, amount to consume). -/
def TokenBucket.runTrace (tb : TokenBucket) : List (ℚ × ℚ) → List (Bool × TokenBucket)
  | [] => []
  | op :: ops =>
    let r := tb.consume op.1 op.2
    r :: r.2.runTrace ops

/-- Throttle primitive `SlidingWindow` (lines 82-89): a time-ordered queue
of accepted request timestamps (`deque`, oldest at the head). -/
structure SlidingWindow where
  window_size : ℚ
  max_requests : ℕ
  requests : List ℚ
deriving DecidableEq

/-- `SlidingWindow.__init__`: empty queue. -/
def SlidingWindow.init (window_size : ℚ) (max_requests : ℕ) : SlidingWindow :=
  { window_size := window_size, max_requests := max_requests, requests := [] }

/-- `SlidingWindow.is_allowed` (lines 91-102): pop entries with timestamp
`<= now - window_size` from the front, then append `now` and allow iff the
remaining queue is shorter than `max_requests`. -/
def SlidingWindow.is_allowed (sw : SlidingWindow) (now : ℚ) :
    Bool × SlidingWindow :=
  let trimmed := sw.requests.dropWhile (fun t => decide (t ≤ now - sw.window_size))
  if trimmed.length < sw.max_requests then
    (true, { sw with requests := trimmed ++ [now] })
  else
    (false, { sw with requests := trimmed })

/-- Results and final state of a sequence of `is_allowed` calls made at the
given wall-clock times. -/
def SlidingWindow.run (sw : SlidingWindow) : List ℚ → List Bool × SlidingWindow
  | [] => ([], sw)
  | t :: ts =>
    let r := sw.is_allowed t
    let rest := r.2.run ts
    (r.1 :: rest.1, rest.2)

/-- The timestamps of the calls that were accepted in a sequence of
`is_allowed` calls. -/
def SlidingWindow.accepted (sw : SlidingWindow) : List ℚ → List ℚ
  | [] => []
  | t :: ts =>
    let r := sw.is_allowed t
    if r.1 then t :: r.2.accepted ts else r.2.accepted ts

/-- Throttle primitive `LeakyBucket` (lines 104-112). -/
structure LeakyBucket where
  capacity : ℚ
  tokens : ℚ
  leak_rate : ℚ
  last_leak : ℚ
deriving DecidableEq

/-- `LeakyBucket.__init__`: starts empty. -/
def LeakyBucket.init (capacity leak_rate now : ℚ) : LeakyBucket :=
  { capacity := capacity, tokens := 0, leak_rate := leak_rate, last_leak := now }

/-- `LeakyBucket.add_request` (lines 114-126): leak from elapsed time,
floored at 0, then accept (incrementing the fill by 1) iff the fill is
strictly below capacity. -/
def LeakyBucket.add_request (lb : LeakyBucket) (now : ℚ) : Bool × LeakyBucket :=
  let leaked := max 0 (lb.tokens - (now - lb.last_leak) * lb.leak_rate)
  if leaked < lb.capacity then
    (true, { lb with tokens := leaked + 1, last_leak := now })
  else
    (false, { lb with tokens := leaked, last_leak := now })

/-- Trace of a sequence of `add_request` calls at the given times. -/
def LeakyBucket.runTrace (lb : LeakyBucket) : List ℚ → List (Bool × LeakyBucket)
  | [] => []
  | t :: ts =>
    let r := lb.add_request t
    r :: r.2.runTrace ts

/-- `RateLimitAlgorithm` enum (lines 20-25). -/
inductive RateLimitAlgorithm where
  | TOKEN_BUCKET
  | SLIDING_WINDOW
  | FIXED_WINDOW
  | LEAKY_BUCKET
deriving DecidableEq

/-- `ThreatLevel` enum (lines 27-32). -/
inductive ThreatLevel where
  | LOW
  | MEDIUM
  | HIGH
  | CRITICAL
deriving DecidableEq

/-- `RateLimitRule` dataclass (lines 34-44). `block_duration_seconds` is an
int number of seconds in the source, modelled as a rational so it can be
added to timestamps. `whitelist`/`blacklist` default to `None`. -/
structure RateLimitRule where
  requests_per_minute : ℕ
  requests_per_hour : ℕ
  requests_per_day : ℕ
  burst_limit : ℕ
  algorithm : RateLimitAlgorithm
  block_duration_seconds : ℚ
  whitelist : Option (List String)
  blacklist : Option (List String)
deriving DecidableEq

/-- The dataclass field defaults of `RateLimitRule`. -/
def RateLimitRule.default : RateLimitRule :=
  { requests_per_minute := 60, requests_per_hour := 1000,
    requests_per_day := 10000, burst_limit := 10,
    algorithm := RateLimitAlgorithm.SLIDING_WINDOW,
    block_duration_seconds := 300, whitelist := none, blacklist := none }

/-- `ClientInfo` dataclass (lines 46-56). `user_agent` may be Python `None`. -/
structure ClientInfo where
  ip_address : String
  user_agent : Option String
  first_seen : ℚ
  last_request : ℚ
  request_count : ℕ
  blocked_until : Option ℚ
  threat_level : ThreatLevel
  violations : ℕ
deriving DecidableEq

/-- The detail dictionary returned by `RateLimiter.is_allowed`: empty,
`{"blocked_until": ...}`, or `{"threat_level": ..., "violations": ...}`. -/
inductive Details where
  | empty
  | blockedUntil (t : ℚ)
  | rateLimit (threat_level : ThreatLevel) (violations : ℕ)
deriving DecidableEq

/-- A value of the heterogeneous `rate_limiters` dictionary (typed `Any` in
the source): one of the three implemented throttle primitives. -/
inductive PrimState where
  | tokenBucket (tb : TokenBucket)
  | slidingWindow (sw : SlidingWindow)
  | leakyBucket (lb : LeakyBucket)
deriving DecidableEq

/-- The mutable state of a `RateLimiter` instance (lines 128-136): the
default rule and the three dictionaries (clients, per-client throttle
primitives, blocked IPs). -/
structure RateLimiter where
  default_rule : RateLimitRule
  clients : String → Option ClientInfo
  rate_limiters : String → Option PrimState
  blocked_ips : String → Option ℚ

/-- `RateLimiter.__init__` with the given default rule and empty maps. -/
def RateLimiter.init (default_rule : RateLimitRule) : RateLimiter :=
  { default_rule := default_rule, clients := fun _ => none,
    rate_limiters := fun _ => none, blocked_ips := fun _ => none }

/-- `RateLimiter._get_client_key` (lines 142-145): the md5 hex digest of
`f"{ip}:{user_agent or 'unknown'}"`.  The hash is modelled as the identity
on the hashed string (an injective renaming; the source accepts collisions
as "same logical client").  Python's `or` also maps an empty user agent to
"unknown". -/
def RateLimiter.get_client_key (ip : String) (ua : Option String) : String :=
  ip ++ ":" ++ (match ua with
    | some s => if s = "" then "unknown" else s
    | none => "unknown")

/-- `RateLimiter._get_rate_limiter` (lines 147-166): lazily create the
primitive selected by the rule's algorithm.  For `FIXED_WINDOW` no branch
inserts anything, and the final `self.rate_limiters[client_key]` lookup
raises `KeyError`. -/
def RateLimiter.get_rate_limiter_map (rls : String → Option PrimState)
    (client_key : String) (rule : RateLimitRule) (now : ℚ) :
    Except String (PrimState × (String → Option PrimState)) :=
  match rls client_key with
  | some p => Except.ok (p, rls)
  | none =>
    match rule.algorithm with
    | RateLimitAlgorithm.TOKEN_BUCKET =>
      let p := PrimState.tokenBucket
        (TokenBucket.init rule.burst_limit ((rule.requests_per_minute : ℚ) / 60) now)
      Except.ok (p, fun k => if k = client_key then some p else rls k)
    | RateLimitAlgorithm.SLIDING_WINDOW =>
      let p := PrimState.slidingWindow (SlidingWindow.init 60 rule.requests_per_minute)
      Except.ok (p, fun k => if k = client_key then some p else rls k)
    | RateLimitAlgorithm.LEAKY_BUCKET =>
      let p := PrimState.leakyBucket
        (LeakyBucket.init rule.burst_limit ((rule.requests_per_minute : ℚ) / 60) now)
      Except.ok (p, fun k => if k = client_key then some p else rls k)
    | RateLimitAlgorithm.FIXED_WINDOW => Except.error "KeyError"

/-- `RateLimiter._update_client_info` (lines 168-182): create the record
with `request_count = 0` then increment, or refresh `last_request` and
increment. -/
def RateLimiter.update_client_info (clients : String → Option ClientInfo)
    (ip : String) (ua : Option String) (client_key : String) (now : ℚ) :
    String → Option ClientInfo :=
  match clients client_key with
  | none =>
    let c : ClientInfo :=
      { ip_address := ip, user_agent := ua, first_seen := now,
        last_request := now, request_count := 1, blocked_until := none,
        threat_level := ThreatLevel.LOW, violations := 0 }
    fun k => if k = client_key then some c else clients k
  | some c =>
    let c' := { c with last_request := now, request_count := c.request_count + 1 }
    fun k => if k = client_key then some c' else clients k

/-- The derived requests-per-minute rate of `_assess_threat_level`
(lines 192-197): `request_count * 60 / (now - first_seen)`, or 0 when no
time has elapsed. -/
def rpmOf (c : ClientInfo) (now : ℚ) : ℚ :=
  if 0 < now - c.first_seen then ((c.request_count : ℚ) * 60) / (now - c.first_seen)
  else 0

/-- `RateLimiter._assess_threat_level` (lines 184-207). -/
def RateLimiter.assess_threat_level (clients : String → Option ClientInfo)
    (client_key : String) (now : ℚ) : ThreatLevel :=
  match clients client_key with
  | none => ThreatLevel.LOW
  | some c =>
    if 1000 < rpmOf c now ∨ 10 < c.violations then ThreatLevel.CRITICAL
    else if 500 < rpmOf c now ∨ 5 < c.violations then ThreatLevel.HIGH
    else if 200 < rpmOf c now ∨ 2 < c.violations then ThreatLevel.MEDIUM
    else ThreatLevel.LOW

/-- `RateLimiter._block_ip` (lines 272-280): record
`now + default_rule.block_duration_seconds` as the unblock time.  Note the
source always reads the duration from `self.default_rule`. -/
def RateLimiter.block_ip (s : RateLimiter) (ip : String) (now : ℚ) : RateLimiter :=
  { s with blocked_ips := fun i =>
      if i = ip then some (now + s.default_rule.block_duration_seconds)
      else s.blocked_ips i }

/-- The rate-limit check dispatch of `RateLimiter.is_allowed`
(lines 239-246): call the method matching the rule's algorithm on the
stored primitive; a primitive of the wrong class raises `AttributeError`
(the method does not exist), and any unmatched algorithm falls through to
`allowed = True`. -/
def RateLimiter.check_prim (alg : RateLimitAlgorithm) (p : PrimState) (now : ℚ) :
    Except String (Bool × PrimState) :=
  match alg, p with
  | RateLimitAlgorithm.TOKEN_BUCKET, PrimState.tokenBucket tb =>
    let r := tb.consume now 1
    Except.ok (r.1, PrimState.tokenBucket r.2)
  | RateLimitAlgorithm.TOKEN_BUCKET, _ => Except.error "AttributeError"
  | RateLimitAlgorithm.SLIDING_WINDOW, PrimState.slidingWindow sw =>
    let r := sw.is_allowed now
    Except.ok (r.1, PrimState.slidingWindow r.2)
  | RateLimitAlgorithm.SLIDING_WINDOW, _ => Except.error "AttributeError"
  | RateLimitAlgorithm.LEAKY_BUCKET, PrimState.leakyBucket lb =>
    let r := lb.add_request now
    Except.ok (r.1, PrimState.leakyBucket r.2)
  | RateLimitAlgorithm.LEAKY_BUCKET, _ => Except.error "AttributeError"
  | RateLimitAlgorithm.FIXED_WINDOW, _ => Except.ok (true, p)

/-- The denial tail of `RateLimiter.is_allowed` (lines 248-268): increment
`violations` (guarded on membership), reassess and store the threat level
(an unguarded dictionary access that would raise `KeyError` were the client
record absent), block the IP on High/Critical, and report the incremented
violation count. -/
def RateLimiter.on_denied (s : RateLimiter) (ip client_key : String) (now : ℚ) :
    Except String (Bool × String × Details) × RateLimiter :=
  match s.clients client_key with
  | none => (Except.error "KeyError", s)
  | some c =>
    let c1 := { c with violations := c.violations + 1 }
    let clients1 := fun k => if k = client_key then some c1 else s.clients k
    let tl := RateLimiter.assess_threat_level clients1 client_key now
    let c2 := { c1 with threat_level := tl }
    let s5 := { s with clients := fun k => if k = client_key then some c2 else s.clients k }
    let s6 := if tl = ThreatLevel.HIGH ∨ tl = ThreatLevel.CRITICAL
              then s5.block_ip ip now else s5
    (Except.ok (false, "Rate limit exceeded", Details.rateLimit tl c1.violations), s6)

/-- `RateLimiter.is_allowed` after the blocked-IP check (lines 223-270):
whitelist, blacklist, client bookkeeping, primitive dispatch, denial
escalation. -/
def RateLimiter.is_allowed_main (s : RateLimiter) (ip : String) (ua : Option String)
    (rule : RateLimitRule) (client_key : String) (now : ℚ) :
    Except String (Bool × String × Details) × RateLimiter :=
  if (rule.whitelist.getD []).contains ip then
    (Except.ok (true, "Whitelisted", Details.empty), s)
  else if (rule.blacklist.getD []).contains ip then
    (Except.ok (false, "Blacklisted", Details.empty), s.block_ip ip now)
  else
    let s2 := { s with clients := RateLimiter.update_client_info s.clients ip ua client_key now }
    match RateLimiter.get_rate_limiter_map s2.rate_limiters client_key rule now with
    | Except.error e => (Except.error e, s2)
    | Except.ok (prim, rls1) =>
      match RateLimiter.check_prim rule.algorithm prim now with
      | Except.error e => (Except.error e, { s2 with rate_limiters := rls1 })
      | Except.ok (allowed, prim') =>
        let s4 := { s2 with rate_limiters := fun k => if k = client_key then some prim' else rls1 k }
        if allowed then (Except.ok (true, "Allowed", Details.empty), s4)
        else s4.on_denied ip client_key now

/-- `RateLimiter.is_allowed` (lines 209-270).  The rule argument defaults
to the instance's default rule; a blocked IP with a future unblock time is
denied outright, an expired entry is lazily removed. -/
def RateLimiter.is_allowed (s : RateLimiter) (ip : String) (ua : Option String)
    (ruleArg : Option RateLimitRule) (now : ℚ) :
    Except String (Bool × String × Details) × RateLimiter :=
  let rule := ruleArg.getD s.default_rule
  let client_key := RateLimiter.get_client_key ip ua
  match s.blocked_ips ip with
  | some t =>
    if now < t then
      (Except.ok (false, "IP blocked", Details.blockedUntil t), s)
    else
      RateLimiter.is_allowed_main
        { s with blocked_ips := fun i => if i = ip then none else s.blocked_ips i }
        ip ua rule client_key now
  | none => RateLimiter.is_allowed_main s ip ua rule client_key now

/-- The mutable state of a `DDoSProtection` instance (lines 329-336): a
reference to the primary rate limiter (never read by
`analyze_request_pattern`), the per-`"{ip}:{endpoint}"` counters
(a `defaultdict(int)`), and the fixed threshold 100. -/
structure DDoSProtection where
  rate_limiter : RateLimiter
  suspicious_patterns : String → ℕ
  attack_detection_threshold : ℕ

/-- `DDoSProtection.__init__`. -/
def DDoSProtection.init (rl : RateLimiter) : DDoSProtection :=
  { rate_limiter := rl, suspicious_patterns := fun _ => 0,
    attack_detection_threshold := 100 }

/-- `DDoSProtection.analyze_request_pattern` (lines 338-356): increment the
counter for `"{ip}:{endpoint}"`, then deny iff the counter exceeds the
threshold.  The `user_agent` argument is unused by the source body. -/
def DDoSProtection.analyze_request_pattern (d : DDoSProtection)
    (ip _ua endpoint : String) : (Bool × String) × DDoSProtection :=
  let pattern_key := ip ++ ":" ++ endpoint
  let cnt := d.suspicious_patterns pattern_key + 1
  let d' := { d with suspicious_patterns :=
    fun k => if k = pattern_key then cnt else d.suspicious_patterns k }
  if d'.attack_detection_threshold < cnt then
    ((false, "DDoS attack detected"), d')
  else
    ((true, "Pattern analysis passed"), d')

/-- State after `n` repeated `analyze_request_pattern` calls with the same
arguments. -/
def DDoSProtection.iterate (d : DDoSProtection) (ip ua endpoint : String) :
    ℕ → DDoSProtection
  | 0 => d
  | n + 1 => ((d.iterate ip ua endpoint n).analyze_request_pattern ip ua endpoint).2

/-- Membership of a timestamp in the half-open span `(a, a + W]`.  This is
the span notion realised by the sliding window's trimming condition
`t <= now - window_size` (timestamps exactly `window_size` old leave the
window). -/
def inSpan (a W s : ℚ) : Bool := decide (a < s ∧ s ≤ a + W)

/- ------------------------------------------------------------------ -/
/- Theorems.                                                           -/
/- ------------------------------------------------------------------ -/

/-- Invariant helper: along any `consume` trace with a monotone clock,
nonnegative refill rate and nonnegative consumption amounts, the token
level stays in `[0, capacity]`. -/
theorem tokenBucket_trace_bounds (ops : List (ℚ × ℚ)) :
    ∀ tb : TokenBucket, 0 ≤ tb.tokens → tb.tokens ≤ tb.capacity →
      0 ≤ tb.refill_rate →
      List.Chain' (· ≤ ·) (tb.last_refill :: ops.map Prod.fst) →
      (∀ p ∈ ops, 0 ≤ p.2) →
      ∀ r ∈ tb.runTrace ops, 0 ≤ r.2.tokens ∧ r.2.tokens ≤ tb.capacity := by
  induction ops with
  | nil =>
    intro tb _ _ _ _ _ r hr
    simp [TokenBucket.runTrace] at hr
  | cons op ops ih =>
    intro tb h0 hc hr hchain hn r hr'
    obtain ⟨now, n⟩ := op
    have hlast : tb.last_refill ≤ now := (List.chain'_cons.mp hchain).1
    have hchain' : List.Chain' (· ≤ ·) (now :: ops.map Prod.fst) :=
      (List.chain'_cons.mp hchain).2
    have hprod : 0 ≤ (now - tb.last_refill) * tb.refill_rate :=
      mul_nonneg (by linarith) hr
    have hre0 : 0 ≤ min tb.capacity (tb.tokens + (now - tb.last_refill) * tb.refill_rate) :=
      le_min (le_trans h0 hc) (by linarith)
    have hrec : min tb.capacity (tb.tokens + (now - tb.last_refill) * tb.refill_rate)
        ≤ tb.capacity := min_le_left _ _
    have hn0 : 0 ≤ n := hn (now, n) (by simp)
    have hntail : ∀ p ∈ ops, 0 ≤ p.2 := fun p hp => hn p (by simp [hp])
    simp only [TokenBucket.runTrace, List.mem_cons] at hr'
    by_cases hcase : n ≤ min tb.capacity (tb.tokens + (now - tb.last_refill) * tb.refill_rate)
    · simp only [TokenBucket.consume, if_pos hcase] at hr'
      rcases hr' with rfl | hr'
      · refine ⟨?_, ?_⟩ <;> dsimp only <;> linarith
      · have := ih _ (by dsimp only; linarith) (by dsimp only; linarith) (by simpa using hr)
          (by simpa using hchain') hntail r hr'
        simpa using this
    · simp only [TokenBucket.consume, if_neg hcase] at hr'
      rcases hr' with rfl | hr'
      · exact ⟨hre0, hrec⟩

      · have := ih _ (by simpa using hre0) (by simpa using hrec) (by simpa using hr)
          (by simpa using hchain') hntail r hr'
        simpa using this

/-- Invariant helper: along any `add_request` trace with a monotone clock
and nonnegative leak rate, the fill level stays in `[0, capacity + 1)`. -/
theorem leakyBucket_trace_bounds (ts : List ℚ) :
    ∀ lb : LeakyBucket, 0 ≤ lb.tokens → lb.tokens < lb.capacity + 1 →
      0 ≤ lb.leak_rate →
      List.Chain' (· ≤ ·) (lb.last_leak :: ts) →
      ∀ r ∈ lb.runTrace ts, 0 ≤ r.2.tokens ∧ r.2.tokens < lb.capacity + 1 := by
  induction ts with
  | nil =>
    intro lb _ _ _ _ r hr
    simp [LeakyBucket.runTrace] at hr
  | cons now ts ih =>
    intro lb h0 hc hr hchain r hr'
    have hlast : lb.last_leak ≤ now := (List.chain'_cons.mp hchain).1
    have hchain' : List.Chain' (· ≤ ·) (now :: ts) := (List.chain'_cons.mp hchain).2
    have hprod : 0 ≤ (now - lb.last_leak) * lb.leak_rate := mul_nonneg (by linarith) hr
    have hl0 : 0 ≤ max 0 (lb.tokens - (now - lb.last_leak) * lb.leak_rate) := le_max_left _ _
    have hlup : max 0 (lb.tokens - (now - lb.last_leak) * lb.leak_rate) ≤ lb.tokens :=
      max_le h0 (by linarith)
    simp only [LeakyBucket.runTrace, List.mem_cons] at hr'
    by_cases hcase : max 0 (lb.tokens - (now - lb.last_leak) * lb.leak_rate) < lb.capacity
    · simp only [LeakyBucket.add_request, if_pos hcase] at hr'
      rcases hr' with rfl | hr'
      · refine ⟨?_, ?_⟩ <;> dsimp only <;> linarith
      · have := ih _ (by dsimp only; linarith) (by dsimp only; linarith) (by simpa using hr)
          (by simpa using hchain') r hr'
        simpa using this
    · simp only [LeakyBucket.add_request, if_neg hcase] at hr'
      rcases hr' with rfl | hr'
      · refine ⟨?_, ?_⟩ <;> dsimp only <;> linarith
      · have := ih _ (by dsimp only; linarith)
          (by dsimp only; linarith) (by simpa using hr)
          (by simpa using hchain') r hr'
        simpa using this

/-- C2: Token bucket bounds and atomicity.  A `consume` call succeeds and
commits the subtraction of `n` iff at least `n` tokens are available after
the time-based refill (the refilled level is
`min capacity (tokens + elapsed * refill_rate)`); a failing call leaves the
level equal to the refilled value (no partial consumption).  Along any
trace of `consume` calls from a freshly constructed bucket — with a
nonnegative capacity and refill rate, a monotone wall clock and
nonnegative consumption amounts — the token level satisfies
`0 ≤ tokens ≤ capacity` after every call. -/
theorem token_bucket_bounds_and_atomicity
    (tb : TokenBucket) (now n : ℚ)
    (capacity refill_rate now0 : ℚ) (ops : List (ℚ × ℚ))
    (hcap : 0 ≤ capacity) (hrate : 0 ≤ refill_rate)
    (hchain : List.Chain' (· ≤ ·) (now0 :: ops.map Prod.fst))
    (hops : ∀ p ∈ ops, 0 ≤ p.2) :
    (((tb.consume now n).1 = true ↔
        n ≤ min tb.capacity (tb.tokens + (now - tb.last_refill) * tb.refill_rate))
      ∧ ((tb.consume now n).1 = true →
          (tb.consume now n).2.tokens
            = min tb.capacity (tb.tokens + (now - tb.last_refill) * tb.refill_rate) - n)
      ∧ ((tb.consume now n).1 = false →
          (tb.consume now n).2.tokens
            = min tb.capacity (tb.tokens + (now - tb.last_refill) * tb.refill_rate)))
    ∧ (∀ r ∈ (TokenBucket.init capacity refill_rate now0).runTrace ops,
        0 ≤ r.2.tokens ∧ r.2.tokens ≤ capacity) := by
  constructor
  · by_cases hcase : n ≤ min tb.capacity (tb.tokens + (now - tb.last_refill) * tb.refill_rate)
    · simp [TokenBucket.consume, hcase]
    · simp [TokenBucket.consume, hcase]
  · intro r hr
    have := tokenBucket_trace_bounds ops (TokenBucket.init capacity refill_rate now0)
      (by simpa [TokenBucket.init] using hcap) (by simp [TokenBucket.init])
      (by simpa [TokenBucket.init] using hrate) (by simpa [TokenBucket.init] using hchain)
      hops r hr
    simpa [TokenBucket.init] using this

/-- Witness for C2 at a concrete bucket and trace. -/
theorem token_bucket_bounds_and_atomicity_witness :
    ((((TokenBucket.mk 5 5 1 0).consume 1 1).1 = true ↔
        (1 : ℚ) ≤ min (5 : ℚ) (5 + (1 - 0) * 1))
      ∧ (((TokenBucket.mk 5 5 1 0).consume 1 1).1 = true →
          ((TokenBucket.mk 5 5 1 0).consume 1 1).2.tokens = min (5 : ℚ) (5 + (1 - 0) * 1) - 1)
      ∧ (((TokenBucket.mk 5 5 1 0).consume 1 1).1 = false →
          ((TokenBucket.mk 5 5 1 0).consume 1 1).2.tokens = min (5 : ℚ) (5 + (1 - 0) * 1)))
    ∧ (∀ r ∈ (TokenBucket.init 5 1 0).runTrace [(0, 1), (2, 6)],
        0 ≤ r.2.tokens ∧ r.2.tokens ≤ 5) :=
  token_bucket_bounds_and_atomicity (TokenBucket.mk 5 5 1 0) 1 1 5 1 0 [(0, 1), (2, 6)]
    (by norm_num) (by norm_num)
    (by simp [List.chain'_cons] <;> norm_num)
    (by intro p hp; simp at hp; rcases hp with rfl | rfl <;> norm_num)

/-- C3 counterexample: the claimed clamp `fill ≤ capacity` fails for
`LeakyBucket`.  With capacity 1 and leak rate 1, accept a request at time
0 (fill becomes 1), then call again at time 1/2: the fill leaks to 1/2,
which is below capacity, so the request is accepted and the fill becomes
3/2 — strictly above the capacity. -/
theorem fill_level_clamp_counterexample :
    (((LeakyBucket.init 1 1 0).add_request 0).2.add_request (1 / 2)).1 = true
    ∧ (((LeakyBucket.init 1 1 0).add_request 0).2.add_request (1 / 2)).2.capacity
        < (((LeakyBucket.init 1 1 0).add_request 0).2.add_request (1 / 2)).2.tokens := by
  have h1 : (LeakyBucket.init 1 1 0).add_request 0 = (true, LeakyBucket.mk 1 1 1 0) := by
    simp only [LeakyBucket.init, LeakyBucket.add_request]
    norm_num
  rw [h1]
  have h2 : (LeakyBucket.mk 1 1 1 0).add_request (1 / 2)
      = (true, LeakyBucket.mk 1 (3 / 2) 1 (1 / 2)) := by
    simp only [LeakyBucket.add_request]
    norm_num
  constructor
  · rw [show (true, LeakyBucket.mk 1 1 1 0).2 = LeakyBucket.mk 1 1 1 0 from rfl, h2]
  · rw [show (true, LeakyBucket.mk 1 1 1 0).2 = LeakyBucket.mk 1 1 1 0 from rfl, h2]
    norm_num

/-- C3 amended: the token level of `TokenBucket` stays within
`[0, capacity]` along any trace of `consume` calls, and the fill level of
`LeakyBucket` stays within `[0, capacity + 1)` along any trace of
`add_request` calls — the fill can overshoot the capacity by strictly less
than one unit after an accepted request, so the `[0, capacity]` clamp holds
for the token bucket but not for the leaky bucket (hypotheses: nonnegative
capacities and rates, monotone wall clock, nonnegative consumption
amounts). -/
theorem fill_level_bounds_amended
    (capacity refill_rate now0 : ℚ) (ops : List (ℚ × ℚ))
    (lcapacity lleak lnow0 : ℚ) (ts : List ℚ)
    (hcap : 0 ≤ capacity) (hrate : 0 ≤ refill_rate)
    (hchain : List.Chain' (· ≤ ·) (now0 :: ops.map Prod.fst))
    (hops : ∀ p ∈ ops, 0 ≤ p.2)
    (hlcap : 0 ≤ lcapacity) (hlleak : 0 ≤ lleak)
    (hlchain : List.Chain' (· ≤ ·) (lnow0 :: ts)) :
    (∀ r ∈ (TokenBucket.init capacity refill_rate now0).runTrace ops,
        0 ≤ r.2.tokens ∧ r.2.tokens ≤ capacity)
    ∧ (∀ r ∈ (LeakyBucket.init lcapacity lleak lnow0).runTrace ts,
        0 ≤ r.2.tokens ∧ r.2.tokens < lcapacity + 1) := by
  constructor
  · intro r hr
    have := tokenBucket_trace_bounds ops (TokenBucket.init capacity refill_rate now0)
      (by simpa [TokenBucket.init] using hcap) (by simp [TokenBucket.init])
      (by simpa [TokenBucket.init] using hrate) (by simpa [TokenBucket.init] using hchain)
      hops r hr
    simpa [TokenBucket.init] using this
  · intro r hr
    have := leakyBucket_trace_bounds ts (LeakyBucket.init lcapacity lleak lnow0)
      (by simp [LeakyBucket.init]) (by simp [LeakyBucket.init]; linarith)
      (by simpa [LeakyBucket.init] using hlleak) (by simpa [LeakyBucket.init] using hlchain)
      r hr
    simpa [LeakyBucket.init] using this

/-- Witness for the amended C3 at concrete buckets and traces. -/
theorem fill_level_bounds_amended_witness :
    (∀ r ∈ (TokenBucket.init 5 1 0).runTrace [(1, 1), (3, 2)],
        0 ≤ r.2.tokens ∧ r.2.tokens ≤ 5)
    ∧ (∀ r ∈ (LeakyBucket.init 1 1 0).runTrace [0, 1 / 2, 1],
        0 ≤ r.2.tokens ∧ r.2.tokens < 1 + 1) :=
  fill_level_bounds_amended 5 1 0 [(1, 1), (3, 2)] 1 1 0 [0, 1 / 2, 1]
    (by norm_num) (by norm_num)
    (by simp [List.chain'_cons] <;> norm_num)
    (by intro p hp; simp at hp; rcases hp with rfl | rfl <;> norm_num)
    (by norm_num) (by norm_num)
    (by simp [List.chain'_cons] <;> norm_num)

/-- Helper: `_assess_threat_level` for a tracked client, written out. -/
theorem assess_threat_level_eq (clients : String → Option ClientInfo)
    (k : String) (now : ℚ) (c : ClientInfo) (hc : clients k = some c) :
    RateLimiter.assess_threat_level clients k now =
      (if 1000 < rpmOf c now ∨ 10 < c.violations then ThreatLevel.CRITICAL
       else if 500 < rpmOf c now ∨ 5 < c.violations then ThreatLevel.HIGH
       else if 200 < rpmOf c now ∨ 2 < c.violations then ThreatLevel.MEDIUM
       else ThreatLevel.LOW) := by
  unfold RateLimiter.assess_threat_level
  rw [hc]

/-- C6: Threat-level thresholds.  For a tracked client whose derived
requests-per-minute rate is at most 200 (below every rpm threshold),
`_assess_threat_level` classifies violations 11 as Critical, 6 as High,
3 as Medium and 0 as Low. -/
theorem threat_level_thresholds (clients : String → Option ClientInfo)
    (client_key : String) (now : ℚ) (c : ClientInfo)
    (hc : clients client_key = some c) (hrpm : rpmOf c now ≤ 200) :
    (c.violations = 11 →
      RateLimiter.assess_threat_level clients client_key now = ThreatLevel.CRITICAL)
    ∧ (c.violations = 6 →
      RateLimiter.assess_threat_level clients client_key now = ThreatLevel.HIGH)
    ∧ (c.violations = 3 →
      RateLimiter.assess_threat_level clients client_key now = ThreatLevel.MEDIUM)
    ∧ (c.violations = 0 →
      RateLimiter.assess_threat_level clients client_key now = ThreatLevel.LOW) := by
  rw [assess_threat_level_eq clients client_key now c hc]
  have h1000 : rpmOf c now ≤ 1000 := by linarith
  have h500 : rpmOf c now ≤ 500 := by linarith
  have h200 : rpmOf c now ≤ 200 := hrpm
  refine ⟨?_, ?_, ?_, ?_⟩ <;> intro hv <;> rw [hv]
  · rw [if_pos (Or.inr (by norm_num))]
  · rw [if_neg (by push_neg; exact ⟨h1000, by norm_num⟩),
      if_pos (Or.inr (by norm_num))]
  · rw [if_neg (by push_neg; exact ⟨h1000, by norm_num⟩),
      if_neg (by push_neg; exact ⟨h500, by norm_num⟩),
      if_pos (Or.inr (by norm_num))]
  · rw [if_neg (by push_neg; exact ⟨h1000, by norm_num⟩),
      if_neg (by push_neg; exact ⟨h500, by norm_num⟩),
      if_neg (by push_neg; exact ⟨h200, by norm_num⟩)]

/-- Witness for C6 at a concrete client map (one client, first seen at
time 0, assessed at time 60 with one recorded request, so the derived rate
is 1 rpm). -/
theorem threat_level_thresholds_witness :
    ((ClientInfo.mk "1.2.3.4" none 0 60 1 none ThreatLevel.LOW 11).violations = 11 →
      RateLimiter.assess_threat_level
        (fun k => if k = "k" then some (ClientInfo.mk "1.2.3.4" none 0 60 1 none ThreatLevel.LOW 11) else none)
        "k" 60 = ThreatLevel.CRITICAL)
    ∧ ((ClientInfo.mk "1.2.3.4" none 0 60 1 none ThreatLevel.LOW 11).violations = 6 →
      RateLimiter.assess_threat_level
        (fun k => if k = "k" then some (ClientInfo.mk "1.2.3.4" none 0 60 1 none ThreatLevel.LOW 11) else none)
        "k" 60 = ThreatLevel.HIGH)
    ∧ ((ClientInfo.mk "1.2.3.4" none 0 60 1 none ThreatLevel.LOW 11).violations = 3 →
      RateLimiter.assess_threat_level
        (fun k => if k = "k" then some (ClientInfo.mk "1.2.3.4" none 0 60 1 none ThreatLevel.LOW 11) else none)
        "k" 60 = ThreatLevel.MEDIUM)
    ∧ ((ClientInfo.mk "1.2.3.4" none 0 60 1 none ThreatLevel.LOW 11).violations = 0 →
      RateLimiter.assess_threat_level
        (fun k => if k = "k" then some (ClientInfo.mk "1.2.3.4" none 0 60 1 none ThreatLevel.LOW 11) else none)
        "k" 60 = ThreatLevel.LOW) :=
  threat_level_thresholds _ "k" 60 (ClientInfo.mk "1.2.3.4" none 0 60 1 none ThreatLevel.LOW 11)
    (by simp) (by norm_num [rpmOf])

/-- Helper: repeated identical `analyze_request_pattern` calls increment
the counter for their pattern key by one each time, and never change the
threshold. -/
theorem ddos_iterate_counter (d : DDoSProtection) (ip ua ep : String) :
    ∀ n : ℕ,
      (d.iterate ip ua ep n).suspicious_patterns (ip ++ ":" ++ ep)
        = d.suspicious_patterns (ip ++ ":" ++ ep) + n
      ∧ (d.iterate ip ua ep n).attack_detection_threshold
        = d.attack_detection_threshold := by
  intro n
  induction n with
  | zero => simp [DDoSProtection.iterate]
  | succ n ih =>
    obtain ⟨ih1, ih2⟩ := ih
    unfold DDoSProtection.iterate
    unfold DDoSProtection.analyze_request_pattern
    dsimp only
    constructor
    · split <;> simp [ih1] <;> ring
    · split <;> simpa using ih2

/-- C8: DDoS threshold and independence.  Starting from a freshly
constructed analyzer (over an arbitrary primary rate limiter, whitelists
included), the `n+1`-st `analyze_request_pattern` call for a fixed
(ip, endpoint) pair returns "Pattern analysis passed" while `n+1 ≤ 100`
and "DDoS attack detected" as soon as `n+1 > 100`; the decision and the
counters never depend on the `rate_limiter` field; and the per-pattern
counters are monotonically non-decreasing across calls. -/
theorem ddos_threshold_and_independence (rl : RateLimiter) (ip ua endpoint : String) :
    (∀ n : ℕ,
      (((DDoSProtection.init rl).iterate ip ua endpoint n).analyze_request_pattern
          ip ua endpoint).1
        = if 100 < n + 1 then (false, "DDoS attack detected")
          else (true, "Pattern analysis passed"))
    ∧ (∀ (d : DDoSProtection) (rl' : RateLimiter),
        (({ d with rate_limiter := rl' }).analyze_request_pattern ip ua endpoint).1
          = (d.analyze_request_pattern ip ua endpoint).1
        ∧ (({ d with rate_limiter := rl' }).analyze_request_pattern
            ip ua endpoint).2.suspicious_patterns
          = (d.analyze_request_pattern ip ua endpoint).2.suspicious_patterns)
    ∧ (∀ (d : DDoSProtection) (k : String),
        d.suspicious_patterns k
          ≤ (d.analyze_request_pattern ip ua endpoint).2.suspicious_patterns k) := by
  refine ⟨?_, ?_, ?_⟩
  · intro n
    obtain ⟨h1, h2⟩ := ddos_iterate_counter (DDoSProtection.init rl) ip ua endpoint n
    unfold DDoSProtection.analyze_request_pattern
    dsimp only
    rw [h1, h2]
    simp only [DDoSProtection.init]
    split <;> split <;> first | rfl | omega
  · intro d rl'
    unfold DDoSProtection.analyze_request_pattern
    dsimp only
    constructor
    · split <;> rfl
    · split <;> rfl
  · intro d k
    unfold DDoSProtection.analyze_request_pattern
    dsimp only
    by_cases hk : k = ip ++ ":" ++ endpoint
    · subst hk
      split <;> simp
    · split <;> simp [hk]

/-- C4: Blocked-IP idempotence and lazy expiry.  While the recorded unblock
time is in the future, `is_allowed` returns
`(false, "IP blocked", details with the unblock time)` and leaves the whole
state — in particular the client's violations and request_count —
untouched; once the unblock time has passed, the call behaves exactly as a
call on the state with the blocked entry removed, i.e. evaluation proceeds
through the normal whitelist/blacklist/algorithmic checks. -/
theorem blocked_ip_idempotence_and_lazy_expiry (s : RateLimiter) (ip : String)
    (ua : Option String) (ruleArg : Option RateLimitRule) (now t : ℚ)
    (hb : s.blocked_ips ip = some t) :
    (now < t →
      s.is_allowed ip ua ruleArg now
        = (Except.ok (false, "IP blocked", Details.blockedUntil t), s))
    ∧ (t ≤ now →
      s.is_allowed ip ua ruleArg now
        = RateLimiter.is_allowed
            { s with blocked_ips := fun i => if i = ip then none else s.blocked_ips i }
            ip ua ruleArg now) := by
  constructor
  · intro h
    simp [RateLimiter.is_allowed, hb, h]
  · intro h
    have hnlt : ¬ now < t := not_lt.mpr h
    simp [RateLimiter.is_allowed, hb, hnlt]

/-- Witness for C4 at a concrete blocked state. -/
theorem blocked_ip_idempotence_and_lazy_expiry_witness :
    ((5 : ℚ) < 10 →
      RateLimiter.is_allowed
          { RateLimiter.init RateLimitRule.default with
            blocked_ips := fun i => if i = "1.1.1.1" then some 10 else none }
          "1.1.1.1" none none 5
        = (Except.ok (false, "IP blocked", Details.blockedUntil 10),
           { RateLimiter.init RateLimitRule.default with
             blocked_ips := fun i => if i = "1.1.1.1" then some 10 else none }))
    ∧ ((10 : ℚ) ≤ 5 →
      RateLimiter.is_allowed
          { RateLimiter.init RateLimitRule.default with
            blocked_ips := fun i => if i = "1.1.1.1" then some 10 else none }
          "1.1.1.1" none none 5
        = RateLimiter.is_allowed
            { { RateLimiter.init RateLimitRule.default with
                blocked_ips := fun i => if i = "1.1.1.1" then some 10 else none } with
              blocked_ips := fun i => if i = "1.1.1.1" then none
                else (fun j => if j = "1.1.1.1" then some (10 : ℚ) else none) i }
            "1.1.1.1" none none 5) :=
  blocked_ip_idempotence_and_lazy_expiry
    { RateLimiter.init RateLimitRule.default with
      blocked_ips := fun i => if i = "1.1.1.1" then some 10 else none }
    "1.1.1.1" none none 5 10 (by simp)

/-- C5: Whitelist/blacklist precedence.  For an IP that is not currently
blocked: if the effective rule's whitelist contains the IP the call returns
`(true, "Whitelisted", {})` and touches neither the client registry nor the
throttle primitives (bypassing all algorithmic throttling); if the IP is
not whitelisted but blacklisted, the call returns
`(false, "Blacklisted", {})` and records a blocked-IP entry (with the
default rule's block duration) on that first contact. -/
theorem whitelist_blacklist_precedence (s : RateLimiter) (ip : String)
    (ua : Option String) (ruleArg : Option RateLimitRule) (now : ℚ)
    (hnb : ∀ t, s.blocked_ips ip = some t → t ≤ now) :
    (((ruleArg.getD s.default_rule).whitelist.getD []).contains ip = true →
      (s.is_allowed ip ua ruleArg now).1 = Except.ok (true, "Whitelisted", Details.empty)
      ∧ (s.is_allowed ip ua ruleArg now).2.clients = s.clients
      ∧ (s.is_allowed ip ua ruleArg now).2.rate_limiters = s.rate_limiters)
    ∧ (((ruleArg.getD s.default_rule).whitelist.getD []).contains ip = false →
       ((ruleArg.getD s.default_rule).blacklist.getD []).contains ip = true →
      (s.is_allowed ip ua ruleArg now).1 = Except.ok (false, "Blacklisted", Details.empty)
      ∧ (s.is_allowed ip ua ruleArg now).2.blocked_ips ip
          = some (now + s.default_rule.block_duration_seconds)) := by
  cases hb : s.blocked_ips ip with
  | none =>
    constructor
    · intro hwl
      have hwl' : ip ∈ (ruleArg.getD s.default_rule).whitelist.getD [] := by simpa using hwl
      simp [RateLimiter.is_allowed, hb, RateLimiter.is_allowed_main, hwl']
    · intro hwl hbl
      have hwl' : ip ∉ (ruleArg.getD s.default_rule).whitelist.getD [] := by simpa using hwl
      have hbl' : ip ∈ (ruleArg.getD s.default_rule).blacklist.getD [] := by simpa using hbl
      simp [RateLimiter.is_allowed, hb, RateLimiter.is_allowed_main, hwl', hbl',
        RateLimiter.block_ip]
  | some t =>
    have hnlt : ¬ now < t := not_lt.mpr (hnb t hb)
    constructor
    · intro hwl
      have hwl' : ip ∈ (ruleArg.getD s.default_rule).whitelist.getD [] := by simpa using hwl
      simp [RateLimiter.is_allowed, hb, hnlt, RateLimiter.is_allowed_main, hwl']
    · intro hwl hbl
      have hwl' : ip ∉ (ruleArg.getD s.default_rule).whitelist.getD [] := by simpa using hwl
      have hbl' : ip ∈ (ruleArg.getD s.default_rule).blacklist.getD [] := by simpa using hbl
      simp [RateLimiter.is_allowed, hb, hnlt, RateLimiter.is_allowed_main, hwl', hbl',
        RateLimiter.block_ip]

/-- Witness for C5 with a concrete whitelist/blacklist rule. -/
theorem whitelist_blacklist_precedence_witness :
    ((((some { RateLimitRule.default with
          whitelist := some ["1.2.3.4"], blacklist := some ["5.6.7.8"] }
        : Option RateLimitRule).getD
          (RateLimiter.init RateLimitRule.default).default_rule).whitelist.getD
            []).contains "5.6.7.8" = true →
      ((RateLimiter.init RateLimitRule.default).is_allowed "5.6.7.8" none
          (some { RateLimitRule.default with
            whitelist := some ["1.2.3.4"], blacklist := some ["5.6.7.8"] }) 0).1
        = Except.ok (true, "Whitelisted", Details.empty)
      ∧ ((RateLimiter.init RateLimitRule.default).is_allowed "5.6.7.8" none
          (some { RateLimitRule.default with
            whitelist := some ["1.2.3.4"], blacklist := some ["5.6.7.8"] }) 0).2.clients
        = (RateLimiter.init RateLimitRule.default).clients
      ∧ ((RateLimiter.init RateLimitRule.default).is_allowed "5.6.7.8" none
          (some { RateLimitRule.default with
            whitelist := some ["1.2.3.4"], blacklist := some ["5.6.7.8"] }) 0).2.rate_limiters
        = (RateLimiter.init RateLimitRule.default).rate_limiters)
    ∧ ((((some { RateLimitRule.default with
          whitelist := some ["1.2.3.4"], blacklist := some ["5.6.7.8"] }
        : Option RateLimitRule).getD
          (RateLimiter.init RateLimitRule.default).default_rule).whitelist.getD
            []).contains "5.6.7.8" = false →
       (((some { RateLimitRule.default with
          whitelist := some ["1.2.3.4"], blacklist := some ["5.6.7.8"] }
        : Option RateLimitRule).getD
          (RateLimiter.init RateLimitRule.default).default_rule).blacklist.getD
            []).contains "5.6.7.8" = true →
      ((RateLimiter.init RateLimitRule.default).is_allowed "5.6.7.8" none
          (some { RateLimitRule.default with
            whitelist := some ["1.2.3.4"], blacklist := some ["5.6.7.8"] }) 0).1
        = Except.ok (false, "Blacklisted", Details.empty)
      ∧ ((RateLimiter.init RateLimitRule.default).is_allowed "5.6.7.8" none
          (some { RateLimitRule.default with
            whitelist := some ["1.2.3.4"], blacklist := some ["5.6.7.8"] }) 0).2.blocked_ips
            "5.6.7.8"
        = some (0 + (RateLimiter.init RateLimitRule.default).default_rule.block_duration_seconds)) :=
  whitelist_blacklist_precedence (RateLimiter.init RateLimitRule.default) "5.6.7.8" none
    (some { RateLimitRule.default with
      whitelist := some ["1.2.3.4"], blacklist := some ["5.6.7.8"] }) 0
    (by intro t ht; simp [RateLimiter.init] at ht)

/-- C7 counterexample: the claimed fail-open behaviour does not hold for a
fresh client.  On an empty `RateLimiter`, a rule selecting the unimplemented
`FixedWindow` algorithm makes `_get_rate_limiter` create nothing, and its
final `self.rate_limiters[client_key]` lookup raises `KeyError` — the call
raises instead of returning an unconditional allow. -/
theorem unknown_algorithm_keyerror_counterexample :
    ((RateLimiter.init RateLimitRule.default).is_allowed "9.9.9.9" none
        (some { RateLimitRule.default with algorithm := RateLimitAlgorithm.FIXED_WINDOW }) 0).1
      = Except.error "KeyError" := by
  simp [RateLimiter.init, RateLimiter.is_allowed, RateLimiter.is_allowed_main,
    RateLimitRule.default, RateLimiter.get_rate_limiter_map,
    RateLimiter.update_client_info]

/-- C7 amended: for an `is_allowed` call whose rule selects the
unimplemented `FixedWindow` algorithm, with the IP neither blocked (or
only expired-blocked), whitelisted, nor blacklisted: if the client already
has a rate-limiter instance, the dispatch falls through to an unconditional
allow (fail-open); if the client has no instance yet, `_get_rate_limiter`
raises `KeyError` instead of allowing. -/
theorem unknown_algorithm_fail_open_amended (s : RateLimiter) (ip : String)
    (ua : Option String) (r : RateLimitRule) (now : ℚ)
    (hnb : ∀ t, s.blocked_ips ip = some t → t ≤ now)
    (hwl : (r.whitelist.getD []).contains ip = false)
    (hbl : (r.blacklist.getD []).contains ip = false)
    (halg : r.algorithm = RateLimitAlgorithm.FIXED_WINDOW) :
    (∀ p, s.rate_limiters (RateLimiter.get_client_key ip ua) = some p →
      (s.is_allowed ip ua (some r) now).1 = Except.ok (true, "Allowed", Details.empty))
    ∧ (s.rate_limiters (RateLimiter.get_client_key ip ua) = none →
      (s.is_allowed ip ua (some r) now).1 = Except.error "KeyError") := by
  have hwl' : ip ∉ r.whitelist.getD [] := by simpa using hwl
  have hbl' : ip ∉ r.blacklist.getD [] := by simpa using hbl
  cases hb : s.blocked_ips ip with
  | none =>
    constructor
    · intro p hp
      simp [RateLimiter.is_allowed, hb, RateLimiter.is_allowed_main, hwl', hbl',
        RateLimiter.get_rate_limiter_map, hp, RateLimiter.check_prim, halg]
    · intro hp
      simp [RateLimiter.is_allowed, hb, RateLimiter.is_allowed_main, hwl', hbl',
        RateLimiter.get_rate_limiter_map, hp, halg]
  | some t =>
    have hnlt : ¬ now < t := not_lt.mpr (hnb t hb)
    constructor
    · intro p hp
      simp [RateLimiter.is_allowed, hb, hnlt, RateLimiter.is_allowed_main, hwl', hbl',
        RateLimiter.get_rate_limiter_map, hp, RateLimiter.check_prim, halg]
    · intro hp
      simp [RateLimiter.is_allowed, hb, hnlt, RateLimiter.is_allowed_main, hwl', hbl',
        RateLimiter.get_rate_limiter_map, hp, halg]

/-- Witness for the amended C7: a state whose client already has a (token
bucket) primitive instance falls through to "Allowed" under a
`FixedWindow` rule, and an empty state raises `KeyError`. -/
theorem unknown_algorithm_fail_open_amended_witness :
    (∀ p, ({ RateLimiter.init RateLimitRule.default with
          rate_limiters := fun k =>
            if k = RateLimiter.get_client_key "9.9.9.9" none
            then some (PrimState.tokenBucket (TokenBucket.init 10 1 0)) else none }
          : RateLimiter).rate_limiters (RateLimiter.get_client_key "9.9.9.9" none) = some p →
      (RateLimiter.is_allowed
          { RateLimiter.init RateLimitRule.default with
            rate_limiters := fun k =>
              if k = RateLimiter.get_client_key "9.9.9.9" none
              then some (PrimState.tokenBucket (TokenBucket.init 10 1 0)) else none }
          "9.9.9.9" none
          (some { RateLimitRule.default with algorithm := RateLimitAlgorithm.FIXED_WINDOW }) 0).1
        = Except.ok (true, "Allowed", Details.empty))
    ∧ (({ RateLimiter.init RateLimitRule.default with
          rate_limiters := fun k =>
            if k = RateLimiter.get_client_key "9.9.9.9" none
            then some (PrimState.tokenBucket (TokenBucket.init 10 1 0)) else none }
          : RateLimiter).rate_limiters (RateLimiter.get_client_key "9.9.9.9" none) = none →
      (RateLimiter.is_allowed
          { RateLimiter.init RateLimitRule.default with
            rate_limiters := fun k =>
              if k = RateLimiter.get_client_key "9.9.9.9" none
              then some (PrimState.tokenBucket (TokenBucket.init 10 1 0)) else none }
          "9.9.9.9" none
          (some { RateLimitRule.default with algorithm := RateLimitAlgorithm.FIXED_WINDOW }) 0).1
        = Except.error "KeyError") :=
  unknown_algorithm_fail_open_amended
    { RateLimiter.init RateLimitRule.default with
      rate_limiters := fun k =>
        if k = RateLimiter.get_client_key "9.9.9.9" none
        then some (PrimState.tokenBucket (TokenBucket.init 10 1 0)) else none }
    "9.9.9.9" none
    { RateLimitRule.default with algorithm := RateLimitAlgorithm.FIXED_WINDOW } 0
    (by intro t ht; simp [RateLimiter.init] at ht)
    (by simp [RateLimitRule.default]) (by simp [RateLimitRule.default]) rfl

/-- Helper: the denial tail only ever writes the default rule's block
duration into the blocked-IP map. -/
theorem on_denied_blocked_ips (s : RateLimiter) (ip ck : String) (now : ℚ)
    (ip' : String) :
    ((s.on_denied ip ck now).2).blocked_ips ip' = s.blocked_ips ip'
    ∨ ((s.on_denied ip ck now).2).blocked_ips ip'
        = some (now + s.default_rule.block_duration_seconds) := by
  unfold RateLimiter.on_denied
  cases hc : s.clients ck with
  | none => left; rfl
  | some c =>
    dsimp only
    split
    · unfold RateLimiter.block_ip
      dsimp only
      by_cases hip : ip' = ip
      · right; simp [hip]
      · left; simp [hip]
    · left; rfl

/-- Helper: the post-blocked-check body only ever writes the default
rule's block duration into the blocked-IP map. -/
theorem is_allowed_main_blocked_ips (s : RateLimiter) (ip : String)
    (ua : Option String) (rule : RateLimitRule) (ck : String) (now : ℚ)
    (ip' : String) :
    ((RateLimiter.is_allowed_main s ip ua rule ck now).2).blocked_ips ip'
      = s.blocked_ips ip'
    ∨ ((RateLimiter.is_allowed_main s ip ua rule ck now).2).blocked_ips ip'
      = some (now + s.default_rule.block_duration_seconds) := by
  unfold RateLimiter.is_allowed_main
  split
  · left; rfl
  · split
    · unfold RateLimiter.block_ip
      dsimp only
      by_cases hip : ip' = ip
      · right; simp [hip]
      · left; simp [hip]
    · dsimp only
      split
      · left; rfl
      · rename_i prim rls1 _
        split
        · left; rfl
        · rename_i allowed prim' _
          split
          · left; rfl
          · exact on_denied_blocked_ips _ ip ck now ip'

/-- C10: Block duration comes from the default rule only.  Every
`is_allowed` call either leaves a given blocked-IP entry unchanged, deletes
it (lazy expiry), or sets it to `now + default_rule.block_duration_seconds`
— and the whole call result is invariant under changing the
`block_duration_seconds` of the rule argument, so a custom rule's block
duration is never used. -/
theorem block_duration_from_default_rule (s : RateLimiter) (ip : String)
    (ua : Option String) (ruleArg : Option RateLimitRule) (now : ℚ) :
    (∀ ip', ((s.is_allowed ip ua ruleArg now).2).blocked_ips ip' = s.blocked_ips ip'
      ∨ ((s.is_allowed ip ua ruleArg now).2).blocked_ips ip' = none
      ∨ ((s.is_allowed ip ua ruleArg now).2).blocked_ips ip'
          = some (now + s.default_rule.block_duration_seconds))
    ∧ (∀ d : ℚ,
        s.is_allowed ip ua (ruleArg.map fun r => { r with block_duration_seconds := d }) now
          = s.is_allowed ip ua ruleArg now) := by
  constructor
  · intro ip'
    unfold RateLimiter.is_allowed
    cases hb : s.blocked_ips ip with
    | none =>
      rcases is_allowed_main_blocked_ips s ip ua (ruleArg.getD s.default_rule)
        (RateLimiter.get_client_key ip ua) now ip' with h | h
      · left; exact h
      · right; right; exact h
    | some t =>
      dsimp only
      split
      · left; rfl
      · have hmain := is_allowed_main_blocked_ips
          { s with blocked_ips := fun i => if i = ip then none else s.blocked_ips i }
          ip ua (ruleArg.getD s.default_rule) (RateLimiter.get_client_key ip ua) now ip'
        rcases hmain with h | h
        · rw [h]
          dsimp only
          by_cases hip : ip' = ip
          · right; left; simp [hip]
          · left; simp [hip]
        · right; right; exact h
  · intro d
    cases ruleArg with
    | none => rfl
    | some r => rfl

/-- C9: End-to-end sliding-window scenario.  On a fresh `RateLimiter`, with
a rule of `requests_per_minute = 2` and the SlidingWindow algorithm, three
`is_allowed` calls for client "1.2.3.4" (same user agent, no
whitelist/blacklist) within one second return, in order,
`(true, "Allowed", {})`, `(true, "Allowed", {})`, and
`(false, "Rate limit exceeded", details)` whose details report
`violations = 1`. -/
theorem end_to_end_sliding_window_scenario (ua : Option String) (t1 t2 t3 : ℚ)
    (h12 : t1 ≤ t2) (h23 : t2 ≤ t3) (h31 : t3 ≤ t1 + 1) :
    (let crule := { RateLimitRule.default with
        requests_per_minute := 2, algorithm := RateLimitAlgorithm.SLIDING_WINDOW };
     let r1 := (RateLimiter.init RateLimitRule.default).is_allowed "1.2.3.4" ua
       (some crule) t1;
     let r2 := r1.2.is_allowed "1.2.3.4" ua (some crule) t2;
     let r3 := r2.2.is_allowed "1.2.3.4" ua (some crule) t3;
     r1.1 = Except.ok (true, "Allowed", Details.empty)
     ∧ r2.1 = Except.ok (true, "Allowed", Details.empty)
     ∧ ∃ tl, r3.1 = Except.ok (false, "Rate limit exceeded", Details.rateLimit tl 1)) := by
  have ha1 : ¬ (t1 ≤ t2 - (60 : ℚ)) := by linarith
  have ha2 : ¬ (t1 ≤ t3 - (60 : ℚ)) := by linarith
  have ha3 : ¬ (t2 ≤ t3 - (60 : ℚ)) := by linarith
  refine ⟨?_, ?_, ?_⟩ <;>
    simp [RateLimiter.is_allowed, RateLimiter.is_allowed_main, RateLimiter.init,
      RateLimiter.update_client_info, RateLimiter.get_rate_limiter_map,
      RateLimiter.check_prim, RateLimiter.on_denied, RateLimiter.block_ip,
      RateLimitRule.default, SlidingWindow.init, SlidingWindow.is_allowed,
      List.dropWhile, ha1, ha2, ha3]

/-- Witness for C9 at the concrete times 0, 1/2, 1. -/
theorem end_to_end_sliding_window_scenario_witness :
    (let crule := { RateLimitRule.default with
        requests_per_minute := 2, algorithm := RateLimitAlgorithm.SLIDING_WINDOW };
     let r1 := (RateLimiter.init RateLimitRule.default).is_allowed "1.2.3.4" none
       (some crule) 0;
     let r2 := r1.2.is_allowed "1.2.3.4" none (some crule) (1 / 2);
     let r3 := r2.2.is_allowed "1.2.3.4" none (some crule) 1;
     r1.1 = Except.ok (true, "Allowed", Details.empty)
     ∧ r2.1 = Except.ok (true, "Allowed", Details.empty)
     ∧ ∃ tl, r3.1 = Except.ok (false, "Rate limit exceeded", Details.rateLimit tl 1)) :=
  end_to_end_sliding_window_scenario none 0 (1 / 2) 1 (by norm_num) (by norm_num)
    (by norm_num)

/-- Helper: one `is_allowed` call never changes the window size or the
request ceiling. -/
theorem sw_step_fields (sw : SlidingWindow) (now : ℚ) :
    ((sw.is_allowed now).2).window_size = sw.window_size
    ∧ ((sw.is_allowed now).2).max_requests = sw.max_requests := by
  unfold SlidingWindow.is_allowed
  dsimp only
  split <;> exact ⟨rfl, rfl⟩

/-- Helper: a run of `is_allowed` calls never changes the window size or
the request ceiling. -/
theorem sw_run_fields (ts : List ℚ) :
    ∀ sw : SlidingWindow,
      ((sw.run ts).2).window_size = sw.window_size
      ∧ ((sw.run ts).2).max_requests = sw.max_requests := by
  induction ts with
  | nil => intro sw; exact ⟨rfl, rfl⟩
  | cons t ts ih =>
    intro sw
    obtain ⟨h1, h2⟩ := ih (sw.is_allowed t).2
    obtain ⟨g1, g2⟩ := sw_step_fields sw t
    unfold SlidingWindow.run
    exact ⟨h1.trans g1, h2.trans g2⟩

/-- Helper: one `is_allowed` call keeps the queue length at most
`max_requests` when it was so before. -/
theorem sw_step_length (sw : SlidingWindow) (now : ℚ)
    (h : sw.requests.length ≤ sw.max_requests) :
    ((sw.is_allowed now).2).requests.length ≤ sw.max_requests := by
  unfold SlidingWindow.is_allowed
  dsimp only
  have hdrop : (sw.requests.dropWhile
      (fun t => decide (t ≤ now - sw.window_size))).length ≤ sw.requests.length :=
    (List.dropWhile_sublist _).length_le
  split
  · rename_i hlt
    simp only [List.length_append, List.length_cons, List.length_nil]
    omega
  · exact le_trans hdrop h

/-- Helper: a run of `is_allowed` calls keeps the queue length at most
`max_requests` when it was so initially. -/
theorem sw_run_length_le (ts : List ℚ) :
    ∀ sw : SlidingWindow, sw.requests.length ≤ sw.max_requests →
      ((sw.run ts).2).requests.length ≤ sw.max_requests := by
  induction ts with
  | nil => intro sw h; exact h
  | cons t ts ih =>
    intro sw h
    unfold SlidingWindow.run
    have hstep := sw_step_length sw t h
    have hfields := (sw_step_fields sw t).2
    have := ih (sw.is_allowed t).2 (by rw [hfields]; exact hstep)
    rw [hfields] at this
    exact this

/-- Helper: unfolding equation for `run` on a cons cell. -/
theorem sw_run_cons (sw : SlidingWindow) (t : ℚ) (ts : List ℚ) :
    sw.run (t :: ts)
      = ((sw.is_allowed t).1 :: ((sw.is_allowed t).2.run ts).1,
         ((sw.is_allowed t).2.run ts).2) := rfl

/-- Helper: unfolding equation for `accepted` on a cons cell. -/
theorem sw_accepted_cons (sw : SlidingWindow) (t : ℚ) (ts : List ℚ) :
    sw.accepted (t :: ts)
      = if (sw.is_allowed t).1 then t :: (sw.is_allowed t).2.accepted ts
        else (sw.is_allowed t).2.accepted ts := rfl

/-- Helper: a run over an appended list decomposes. -/
theorem sw_run_append (l1 l2 : List ℚ) :
    ∀ sw : SlidingWindow,
      sw.run (l1 ++ l2)
        = ((sw.run l1).1 ++ ((sw.run l1).2.run l2).1, ((sw.run l1).2.run l2).2) := by
  induction l1 with
  | nil => intro sw; simp [SlidingWindow.run]
  | cons t l1 ih =>
    intro sw
    simp only [List.cons_append, sw_run_cons, ih (sw.is_allowed t).2]

/-- Helper: the accepted timestamps of an appended run decompose. -/
theorem sw_accepted_append (l1 l2 : List ℚ) :
    ∀ sw : SlidingWindow,
      sw.accepted (l1 ++ l2)
        = sw.accepted l1 ++ ((sw.run l1).2).accepted l2 := by
  induction l1 with
  | nil => intro sw; simp [SlidingWindow.accepted, SlidingWindow.run]
  | cons t l1 ih =>
    intro sw
    simp only [List.cons_append, sw_accepted_cons, sw_run_cons, ih (sw.is_allowed t).2]
    split <;> simp

/-- Helper: a run returns exactly one decision per call. -/
theorem sw_run_length (ts : List ℚ) :
    ∀ sw : SlidingWindow, ((sw.run ts).1).length = ts.length := by
  induction ts with
  | nil => intro sw; rfl
  | cons t ts ih =>
    intro sw
    unfold SlidingWindow.run
    simp [ih (sw.is_allowed t).2]

/-- Helper: every accepted timestamp is one of the call times. -/
theorem sw_accepted_mem (ts : List ℚ) :
    ∀ (sw : SlidingWindow) (y : ℚ), y ∈ sw.accepted ts → y ∈ ts := by
  induction ts with
  | nil => intro sw y h; simp [SlidingWindow.accepted] at h
  | cons t ts ih =>
    intro sw y h
    unfold SlidingWindow.accepted at h
    dsimp only at h
    by_cases hb : (sw.is_allowed t).1 = true
    · rw [if_pos hb] at h
      rcases List.mem_cons.mp h with rfl | h
      · exact List.mem_cons_self _ _
      · exact List.mem_cons_of_mem _ (ih _ y h)
    · rw [if_neg hb] at h
      exact List.mem_cons_of_mem _ (ih _ y h)

/-- Helper: on a `≤`-sorted list, dropping the `≤ c` front is the same as
filtering for `c < ·`. -/
theorem dropWhile_le_eq_filter (c : ℚ) :
    ∀ l : List ℚ, List.Pairwise (· ≤ ·) l →
      l.dropWhile (fun t => decide (t ≤ c)) = l.filter (fun t => decide (c < t)) := by
  intro l
  induction l with
  | nil => intro _; rfl
  | cons a l ih =>
    intro hp
    have ha := (List.pairwise_cons.mp hp).1
    have hl := (List.pairwise_cons.mp hp).2
    by_cases hac : a ≤ c
    · rw [show List.dropWhile (fun t => decide (t ≤ c)) (a :: l)
            = List.dropWhile (fun t => decide (t ≤ c)) l by simp [List.dropWhile, hac],
        show List.filter (fun t => decide (c < t)) (a :: l)
            = List.filter (fun t => decide (c < t)) l by
          simp [List.filter_cons, not_lt.mpr hac]]
      exact ih hl
    · have hca : c < a := not_le.mp hac
      have : ∀ b ∈ l, decide (c < b) = true := by
        intro b hb
        simp [lt_of_lt_of_le hca (ha b hb)]
      simp [List.dropWhile, List.filter, hac, hca, List.filter_eq_self.mpr this]

/-- Helper: trimming a window queue that is the `> c - W` filter of a
sorted history `A`, at a later time `t`, yields the `> t - W` filter of
`A`. -/
theorem sw_trim_eq (W : ℚ) (A : List ℚ) (c t : ℚ)
    (hA : List.Pairwise (· ≤ ·) A) (hct : c ≤ t) :
    (A.filter (fun s => decide (c - W < s))).dropWhile (fun s => decide (s ≤ t - W))
      = A.filter (fun s => decide (t - W < s)) := by
  have hp : List.Pairwise (· ≤ ·) (A.filter (fun s => decide (c - W < s))) :=
    hA.filter _
  rw [dropWhile_le_eq_filter (t - W) _ hp, List.filter_filter]
  apply List.filter_congr
  intro s _
  by_cases h : t - W < s
  · have hc : c - W < s := by linarith
    simp [h, hc]
  · simp [h]

/-- Central invariant for the sliding window: running from a state whose
queue is the in-window filter of a sorted accepted history `A` (all of it
at or before the reference time `c`, with the queue no longer than `N`)
keeps, for every half-open span `(a, a + W]`, the total number of
in-span accepted timestamps (history and new) at most `N`. -/
theorem sw_span_main (W : ℚ) (N : ℕ) (hW : 0 < W) :
    ∀ (ts A : List ℚ) (c : ℚ),
      List.Pairwise (· ≤ ·) A →
      (∀ x ∈ A, x ≤ c) →
      List.Chain' (· ≤ ·) (c :: ts) →
      (A.filter (fun s => decide (c - W < s))).length ≤ N →
      ∀ a : ℚ,
        (A.filter (fun s => decide (c - W < s))).countP (inSpan a W)
          + ((SlidingWindow.mk W N
              (A.filter (fun s => decide (c - W < s)))).accepted ts).countP
              (inSpan a W) ≤ N := by
  intro ts
  induction ts with
  | nil =>
    intro A c hA hAc hchain hlen a
    simp only [SlidingWindow.accepted, List.countP_nil, Nat.add_zero]
    exact le_trans (List.countP_le_length ..) hlen
  | cons t ts ih =>
    intro A c hA hAc hchain hlen a
    have hct : c ≤ t := (List.chain'_cons.mp hchain).1
    have hchain' : List.Chain' (· ≤ ·) (t :: ts) := (List.chain'_cons.mp hchain).2
    have htts : ∀ y ∈ ts, t ≤ y := by
      intro y hy
      exact (List.pairwise_cons.mp (List.chain'_iff_pairwise.mp hchain')).1 y hy
    have htrim := sw_trim_eq W A c t hA hct
    have hstep : (SlidingWindow.mk W N
        (A.filter (fun s => decide (c - W < s)))).is_allowed t
        = if (A.filter (fun s => decide (t - W < s))).length < N then
            (true, SlidingWindow.mk W N
              (A.filter (fun s => decide (t - W < s)) ++ [t]))
          else
            (false, SlidingWindow.mk W N
              (A.filter (fun s => decide (t - W < s)))) := by
      unfold SlidingWindow.is_allowed
      dsimp only
      rw [htrim]
    have hkey : (A.filter (fun s => decide (c - W < s))).countP (inSpan a W)
          = (A.filter (fun s => decide (t - W < s))).countP (inSpan a W)
        ∨ (inSpan a W t = false ∧ ∀ y : ℚ, t ≤ y → inSpan a W y = false) := by
      by_cases hx : ∃ s ∈ A, a < s ∧ s ≤ a + W ∧ c - W < s ∧ s ≤ t - W
      · right
        obtain ⟨s, hsA, has, hsaW, hscW, hstW⟩ := hx
        have haWt : a + W < t := by linarith
        constructor
        · simp only [inSpan, decide_eq_false_iff_not]
          intro h
          linarith [h.2]
        · intro y hy
          simp only [inSpan, decide_eq_false_iff_not]
          intro h
          linarith [h.2]
      · left
        push_neg at hx
        rw [List.countP_filter, List.countP_filter]
        apply List.countP_congr
        intro s hs
        by_cases h1 : inSpan a W s = true
        · have h1' : a < s ∧ s ≤ a + W := by
            simpa [inSpan] using h1
          by_cases h2 : t - W < s
          · have h3 : c - W < s := by linarith
            simp [h1, h2, h3]
          · have h4 : ¬ (c - W < s) := by
              intro h5
              exact h2 (hx s hs h1'.1 h1'.2 h5)
            simp [h1, h2, h4]
        · simp only [Bool.not_eq_true] at h1
          simp [h1]
    by_cases hlt : (A.filter (fun s => decide (t - W < s))).length < N
    · -- the call at time t is accepted
      have happ : A.filter (fun s => decide (t - W < s)) ++ [t]
          = (A ++ [t]).filter (fun s => decide (t - W < s)) := by
        rw [List.filter_append]
        simp [show t - W < t by linarith]
      have hA' : List.Pairwise (· ≤ ·) (A ++ [t]) := by
        rw [List.pairwise_append]
        refine ⟨hA, by simp, ?_⟩
        intro x hx y hy
        simp only [List.mem_singleton] at hy
        subst hy
        exact le_trans (hAc x hx) hct
      have hAc' : ∀ x ∈ A ++ [t], x ≤ t := by
        intro x hx
        rcases List.mem_append.mp hx with h | h
        · exact le_trans (hAc x h) hct
        · simp only [List.mem_singleton] at h
          subst h
          exact le_refl _
      have hlen' : ((A ++ [t]).filter (fun s => decide (t - W < s))).length ≤ N := by
        rw [← happ, List.length_append]
        simp only [List.length_singleton]
        omega
      have IH := ih (A ++ [t]) t hA' hAc' hchain' hlen' a
      rw [← happ] at IH
      rw [List.countP_append, List.countP_cons] at IH
      simp only [List.countP_nil, Nat.zero_add] at IH
      have haccT : (SlidingWindow.mk W N
          (A.filter (fun s => decide (c - W < s)))).accepted (t :: ts)
          = t :: (SlidingWindow.mk W N
              (A.filter (fun s => decide (t - W < s)) ++ [t])).accepted ts := by
        rw [sw_accepted_cons, hstep, if_pos hlt]
        rfl
      rw [haccT, List.countP_cons]
      have hacc_mem : ∀ y ∈ (SlidingWindow.mk W N
          (A.filter (fun s => decide (t - W < s)) ++ [t])).accepted ts, t ≤ y :=
        fun y hy => htts y (sw_accepted_mem ts _ y hy)
      rcases hkey with hkey | ⟨hit, hpast⟩
      · rw [hkey]
        generalize (if inSpan a W t = true then 1 else 0) = K at IH ⊢
        omega
      · have hacc0 : ((SlidingWindow.mk W N
            (A.filter (fun s => decide (t - W < s)) ++ [t])).accepted ts).countP
            (inSpan a W) = 0 :=
          List.countP_eq_zero.mpr (fun y hy => by simp [hpast y (hacc_mem y hy)])
        rw [hacc0, hit]
        simp only [Bool.false_eq_true, if_false, Nat.add_zero]
        exact le_trans (List.countP_le_length ..) hlen
    · -- the call at time t is denied
      have hlenF : (A.filter (fun s => decide (t - W < s))).length ≤ N := by
        rw [← htrim]
        exact le_trans (List.dropWhile_sublist _).length_le hlen
      have IH := ih A t hA (fun x hx => le_trans (hAc x hx) hct) hchain' hlenF a
      have haccF : (SlidingWindow.mk W N
          (A.filter (fun s => decide (c - W < s)))).accepted (t :: ts)
          = (SlidingWindow.mk W N
              (A.filter (fun s => decide (t - W < s)))).accepted ts := by
        rw [sw_accepted_cons, hstep, if_neg hlt]
        rfl
      rw [haccF]
      have hacc_mem : ∀ y ∈ (SlidingWindow.mk W N
          (A.filter (fun s => decide (t - W < s)))).accepted ts, t ≤ y :=
        fun y hy => htts y (sw_accepted_mem ts _ y hy)
      rcases hkey with hkey | ⟨hit, hpast⟩
      · rw [hkey]
        omega
      · have hacc0 : ((SlidingWindow.mk W N
            (A.filter (fun s => decide (t - W < s)))).accepted ts).countP
            (inSpan a W) = 0 :=
          List.countP_eq_zero.mpr (fun y hy => by simp [hpast y (hacc_mem y hy)])
        rw [hacc0, Nat.add_zero]
        exact le_trans (List.countP_le_length ..) hlen

/-- C1: Sliding window exactness.  For a `SlidingWindow` with
`max_requests = N` and `window_size = W > 0` and any non-decreasing
sequence of `is_allowed` call times: (1) at most `N` accepted calls have
their timestamps in any `W`-second span — the half-open span `(a, a + W]`
realised by the code's eviction of timestamps `≤ now − W`; (2) a call
made when `N` earlier-accepted timestamps already lie within the
`W`-second span ending at its own time (the `(N+1)`-st in that span)
returns `false`; (3) a call made more than `W` seconds after the oldest
still-recorded accepted timestamp returns `true` again. -/
theorem sliding_window_exactness (W : ℚ) (N : ℕ) (ts : List ℚ)
    (hW : 0 < W) (hts : List.Chain' (· ≤ ·) ts) :
    (∀ a : ℚ, ((SlidingWindow.init W N).accepted ts).countP (inSpan a W) ≤ N)
    ∧ (∀ (l1 : List ℚ) (t : ℚ) (l2 : List ℚ), ts = l1 ++ t :: l2 →
        N ≤ ((SlidingWindow.init W N).accepted l1).countP (inSpan (t - W) W) →
        ((SlidingWindow.init W N).run ts).1[l1.length]? = some false)
    ∧ (∀ (l1 : List ℚ) (t : ℚ) (l2 : List ℚ), ts = l1 ++ t :: l2 →
        ∀ t0 : ℚ, (((SlidingWindow.init W N).run l1).2).requests.head? = some t0 →
        t0 + W < t →
        ((SlidingWindow.init W N).run ts).1[l1.length]? = some true) := by
  have hi : ∀ a : ℚ, ((SlidingWindow.init W N).accepted ts).countP (inSpan a W) ≤ N := by
    intro a
    cases ts with
    | nil => simp [SlidingWindow.accepted]
    | cons t0 ts' =>
      have h := sw_span_main W N hW (t0 :: ts') [] t0 (by simp) (by simp)
        (List.chain'_cons.mpr ⟨le_refl t0, hts⟩) (by simp) a
      simpa [SlidingWindow.init] using h
  refine ⟨hi, ?_, ?_⟩
  · intro l1 t l2 hts_eq hN
    subst hts_eq
    rw [sw_run_append]
    dsimp only
    have hlen1 : (((SlidingWindow.init W N).run l1).1).length = l1.length :=
      sw_run_length l1 _
    rw [List.getElem?_append_right (le_of_eq hlen1), hlen1, Nat.sub_self, sw_run_cons]
    dsimp only
    cases hb : ((((SlidingWindow.init W N).run l1).2).is_allowed t).1 with
    | false => simp
    | true =>
      exfalso
      have hfull := hi (t - W)
      rw [sw_accepted_append, sw_accepted_cons, hb, if_pos rfl,
        List.countP_append, List.countP_cons] at hfull
      have hispan : inSpan (t - W) W t = true := by
        simp only [inSpan, decide_eq_true_eq]
        constructor <;> linarith
      rw [hispan] at hfull
      rw [show (if (true = true) then 1 else 0) = 1 from rfl] at hfull
      omega
  · intro l1 t l2 hts_eq t0 hhead ht
    subst hts_eq
    rw [sw_run_append]
    dsimp only
    have hlen1 : (((SlidingWindow.init W N).run l1).1).length = l1.length :=
      sw_run_length l1 _
    rw [List.getElem?_append_right (le_of_eq hlen1), hlen1, Nat.sub_self, sw_run_cons]
    dsimp only
    have hfW : (((SlidingWindow.init W N).run l1).2).window_size = W :=
      (sw_run_fields l1 _).1
    have hfN : (((SlidingWindow.init W N).run l1).2).max_requests = N :=
      (sw_run_fields l1 _).2
    have hlenS : (((SlidingWindow.init W N).run l1).2).requests.length ≤ N := by
      have := sw_run_length_le l1 (SlidingWindow.init W N)
        (by simp [SlidingWindow.init])
      simpa [SlidingWindow.init] using this
    obtain ⟨rest, hreq⟩ :
        ∃ rest, (((SlidingWindow.init W N).run l1).2).requests = t0 :: rest := by
      cases hr : (((SlidingWindow.init W N).run l1).2).requests with
      | nil => rw [hr] at hhead; simp at hhead
      | cons a r =>
        rw [hr] at hhead
        simp only [List.head?_cons, Option.some.injEq] at hhead
        exact ⟨r, by rw [hhead]⟩
    have hp0 : decide (t0 ≤ t - W) = true := by
      simp only [decide_eq_true_eq]
      linarith
    have hlt : (rest.dropWhile (fun s => decide (s ≤ t - W))).length < N := by
      have h1 : (rest.dropWhile (fun s => decide (s ≤ t - W))).length ≤ rest.length :=
        (List.dropWhile_sublist _).length_le
      have h2 : (t0 :: rest).length ≤ N := by rw [← hreq]; exact hlenS
      simp only [List.length_cons] at h2
      omega
    unfold SlidingWindow.is_allowed
    simp only [hfW, hfN, hreq, List.dropWhile_cons, hp0, if_true, if_pos hlt]
    simp

/-- Witness for C1 at `W = 10`, `N = 2` and the call times `[0, 1, 2, 12]`. -/
theorem sliding_window_exactness_witness :
    (∀ a : ℚ, ((SlidingWindow.init 10 2).accepted [0, 1, 2, 12]).countP (inSpan a 10) ≤ 2)
    ∧ (∀ (l1 : List ℚ) (t : ℚ) (l2 : List ℚ), [(0 : ℚ), 1, 2, 12] = l1 ++ t :: l2 →
        2 ≤ ((SlidingWindow.init 10 2).accepted l1).countP (inSpan (t - 10) 10) →
        ((SlidingWindow.init 10 2).run [0, 1, 2, 12]).1[l1.length]? = some false)
    ∧ (∀ (l1 : List ℚ) (t : ℚ) (l2 : List ℚ), [(0 : ℚ), 1, 2, 12] = l1 ++ t :: l2 →
        ∀ t0 : ℚ, (((SlidingWindow.init 10 2).run l1).2).requests.head? = some t0 →
        t0 + 10 < t →
        ((SlidingWindow.init 10 2).run [0, 1, 2, 12]).1[l1.length]? = some true) :=
  sliding_window_exactness 10 2 [0, 1, 2, 12] (by norm_num)
    (by simp [List.chain'_cons] <;> norm_num)

end RateLimiterSpec
